/-
Verification of the minisqlengine Go HTTP query service
(`server` package: `Engine.Query` and `handleQuery`).

The Go source is shallowly embedded as pure Lean functions:

* `Engine.Query` is a pure function in the source (the `SLEEP` branch only
  delays; it does not change the returned value), so it embeds directly.
* `handleQuery` is embedded as a function of the handler configuration
  (the `API_TOKEN` / `DEV_MODE` environment values captured at closure
  creation), the incoming request (its `Authorization` header and the
  outcome of JSON-decoding its body, modelled opaquely as a
  `ParseResult`), and one timing parameter `latencyNS`: the instant (in
  nanoseconds) at which the engine goroutine delivers its result on
  `resultCh`/`errCh`.  The `select` race between `ctx.Done()` and the
  result channels is modelled in idealized time: the deadline fires at
  the effective timeout, and whichever instant is strictly earlier wins;
  when both are ready simultaneously the engine result is taken (the Go
  `select` may pick either; the model fixes one deterministic choice).
  Cancellation of the parent request context is outside the model.
* Go `int` / `time.Duration` arithmetic is 64-bit twos-complement and
  wraps; `wrap64` reproduces that for the
  `time.Duration(req.TimeoutMS) * time.Millisecond` multiplication.
* The observable side effects of the handler other than the response — the
  body-decode attempt and the audit `log.Printf` — are recorded in an
  event trace in source order.
-/
import Mathlib

namespace MiniSQL

/-- An opaque row scalar (`interface{}` in the Go source): the engine only
stores and forwards these values. -/
inductive Value where
  | int : Int → Value
  | str : String → Value
deriving DecidableEq, Repr

/-- The `APIError` struct from the source: `{ code, message }`. -/
structure APIError where
  code : Int
  message : String
deriving DecidableEq, Repr

/-- The `QueryResponse` struct from the source.  In Go the `[]string`, `[][]interface{}`
and `*APIError` fields are `nil` when unset; `none` models `nil`. -/
structure QueryResponse where
  columns : Option (List String) := none
  rows : Option (List (List Value)) := none
  error : Option APIError := none
deriving DecidableEq, Repr

/-- The `QueryRequest` struct from the source (JSON body fields `sql`, `limit`,
`offset`, `timeout_ms`; absent fields decode to the zero value). -/
structure QueryRequest where
  sql : String
  limit : Int := 0
  offset : Int := 0
  timeoutMS : Int := 0
deriving DecidableEq, Repr

/-- The in-memory engine state: fixed columns and rows. -/
structure Engine where
  columns : List String
  rows : List (List Value)
deriving Repr

/-- The `NewEngine` constructor from the source: columns `id`,`name`, one row `(1, Alice)`. -/
def NewEngine : Engine :=
  { columns := ["id", "name"], rows := [[Value.int 1, Value.str "Alice"]] }

/-- The limit/offset handling inlined in `Engine.Query`:
`rows` is first cut by `offset` (`if offset > 0 { if offset >= len(rows)
{ rows = empty } else { rows = rows[offset:] } }`), then truncated by
`limit` (`if limit > 0 && limit < len(rows) { rows = rows[:limit] }`). -/
def paginate (rows : List (List Value)) (limit offset : Int) : List (List Value) :=
  let rows1 :=
    if 0 < offset then
      if (rows.length : Int) ≤ offset then [] else rows.drop offset.toNat
    else rows
  if 0 < limit ∧ limit < (rows1.length : Int) then rows1.take limit.toNat else rows1

/-- Reference pagination contract, written from the words of the spec (§4.2):
if `offset > 0` drop the first `offset` elements, an `offset ≥ length`
giving the empty sequence; then if `limit > 0` and `limit` is below the
remaining length truncate to the first `limit` elements; `limit = 0`
never truncates. -/
def specPaginate (rows : List (List Value)) (limit offset : Int) : List (List Value) :=
  let remaining :=
    if 0 < offset then
      if (rows.length : Int) ≤ offset then [] else rows.drop offset.toNat
    else rows
  if 0 < limit ∧ limit < (remaining.length : Int) then remaining.take limit.toNat
  else remaining

/-- The `Engine.Query` method from the source: an empty `sql` yields
`errors.New("empty SQL")`; otherwise the fixed columns together with the
paginated rows are returned.  (`sql == "SLEEP"` only sleeps; the returned
value is unaffected, the delay shows up as the latency seen by the handler.) -/
def Engine.Query (e : Engine) (sql : String) (limit offset : Int) :
    Except String (List String × List (List Value)) :=
  if sql = "" then Except.error "empty SQL"
  else Except.ok (e.columns, paginate e.rows limit offset)

/-- Twos-complement wraparound of Go 64-bit signed arithmetic. -/
def wrap64 (x : Int) : Int := (x + 2 ^ 63) % 2 ^ 64 - 2 ^ 63

/-- The effective timeout in nanoseconds:
`timeout := time.Duration(req.TimeoutMS) * time.Millisecond` (an int64
multiplication, which wraps), then `if timeout <= 0 { timeout = 5 *
time.Second }`. -/
def effectiveTimeoutNS (timeoutMS : Int) : Int :=
  let t := wrap64 (timeoutMS * 1000000)
  if t ≤ 0 then 5000000000 else t

/-- The handler configuration captured when `handleQuery` builds the
closure: `token := os.Getenv("API_TOKEN")`, `devMode :=
os.Getenv("DEV_MODE") == "1"`. -/
structure HandlerConfig where
  token : String
  devMode : Bool
deriving Repr

/-- The outcome of `json.NewDecoder(r.Body).Decode(&req)`, modelled
opaquely: either the decoded request or the error text of the decoder. -/
inductive ParseResult where
  | ok (req : QueryRequest)
  | err (msg : String)
deriving DecidableEq, Repr

/-- True when the body decoded. -/
def ParseResult.isOk : ParseResult → Bool
  | .ok _ => true
  | .err _ => false

/-- An incoming HTTP request as the handler observes it: the
`Authorization` header (`""` when absent, as `r.Header.Get` returns) and
the decode outcome of the body. -/
structure HTTPRequest where
  authHeader : String
  body : ParseResult
deriving Repr

/-- Observable handler side effects other than the response write, in
source order: the body-decode attempt, then the audit
`log.Printf("query: %s", req.SQL)`. -/
inductive Event where
  | decodeAttempt
  | audit (sql : String)
deriving DecidableEq, Repr

/-- Number of audit emissions in a trace. -/
def auditCount (events : List Event) : Nat :=
  (events.filter fun ev => match ev with | .audit _ => true | _ => false).length

/-- What the handler produces for one request: the HTTP status written by
`w.WriteHeader`, the JSON-encoded `QueryResponse`, and the side-effect
trace. -/
structure HandlerResult where
  status : Nat
  response : QueryResponse
  events : List Event
deriving Repr

/-- The `handleQuery` closure from the source, for one request.  `latencyNS` is the
instant at which the send of the engine goroutine on `resultCh`/`errCh`
becomes observable; the deadline fires at the effective timeout, and the
strictly earlier instant wins the `select` (ties go to the engine
result). -/
def handleQuery (cfg : HandlerConfig) (e : Engine) (r : HTTPRequest)
    (latencyNS : Int) : HandlerResult :=
  if ¬cfg.devMode ∧ cfg.token ≠ "" ∧ r.authHeader ≠ "Bearer " ++ cfg.token then
    { status := 401
      response := { error := some { code := 401, message := "unauthorized" } }
      events := [] }
  else
    match r.body with
    | .err msg =>
        { status := 400
          response := { error := some { code := 400, message := msg } }
          events := [.decodeAttempt] }
    | .ok req =>
        let events : List Event := [.decodeAttempt, .audit req.sql]
        if effectiveTimeoutNS req.timeoutMS < latencyNS then
          { status := 408
            response := { error := some { code := 408, message := "timeout" } }
            events := events }
        else
          match e.Query req.sql req.limit req.offset with
          | .error msg =>
              { status := 400
                response := { error := some { code := 400, message := msg } }
                events := events }
          | .ok (cols, rows) =>
              { status := 200
                response := { columns := some cols, rows := some rows }
                events := events }

/-- Authorization predicate written from the words of the spec (§4.1): with
`devMode` set or an empty secret every request is authorized; otherwise
only a header equal to `"Bearer " ++ secret` is. -/
def specAuthorize (presented secret : String) (devMode : Bool) : Bool :=
  if devMode || secret == "" then true
  else presented == "Bearer " ++ secret

/-- The wire invariant on a response: exactly one of the
`columns`/`rows` pair or `error` is populated. -/
def wellFormed (resp : QueryResponse) : Prop :=
  (resp.columns.isSome ∧ resp.rows.isSome ∧ resp.error = none) ∨
  (resp.columns = none ∧ resp.rows = none ∧ resp.error.isSome)

lemma specAuthorize_eq_false_iff (hdr secret : String) (dev : Bool) :
    specAuthorize hdr secret dev = false ↔
      (¬dev ∧ secret ≠ "" ∧ hdr ≠ "Bearer " ++ secret) := by
  unfold specAuthorize
  split
  · rename_i h
    simp only [Bool.or_eq_true, beq_iff_eq] at h
    rcases h with h | h <;> simp [h]
  · rename_i h
    simp only [Bool.or_eq_true, beq_iff_eq, not_or] at h
    simp [h.1, h.2, beq_eq_false_iff_ne]

lemma specAuthorize_eq_true_iff (hdr secret : String) (dev : Bool) :
    specAuthorize hdr secret dev = true ↔
      (dev = true ∨ secret = "" ∨ hdr = "Bearer " ++ secret) := by
  have h := specAuthorize_eq_false_iff hdr secret dev
  cases hb : specAuthorize hdr secret dev with
  | false =>
    obtain ⟨h1, h2, h3⟩ := h.mp hb
    refine iff_of_false (by simp) ?_
    rintro (hd | hs | hh)
    · exact h1 hd
    · exact h2 hs
    · exact h3 hh
  | true =>
    refine iff_of_true rfl ?_
    by_contra hc
    push_neg at hc
    have hf := h.mpr ⟨hc.1, hc.2.1, hc.2.2⟩
    rw [hb] at hf
    simp at hf

/-- C1: every response emitted by the handler populates exactly one of
the pair `{columns, rows}` or the `error` field — the success branch
carries columns and rows with no error, and each of the unauthorized,
malformed-body, execution-failure and timeout branches carries an error
with no columns and no rows. -/
theorem handleQuery_response_wellFormed (cfg : HandlerConfig) (e : Engine)
    (r : HTTPRequest) (latencyNS : Int) :
    wellFormed (handleQuery cfg e r latencyNS).response := by
  unfold handleQuery wellFormed
  split
  · right; simp
  · split
    · right; simp
    · dsimp only
      split
      · right; simp
      · split
        · right; simp
        · left; simp

/-- C2: the status code is exactly 401 when authorization fails, 408 when
the deadline elapses before the engine responds, 400 when the body fails
to parse or the engine reports a failure, 200 when the engine returns a
result before the deadline, and no other status is ever produced. -/
theorem handleQuery_status_mapping (cfg : HandlerConfig) (e : Engine)
    (hdr : String) (body : ParseResult) (latencyNS : Int) :
    ((handleQuery cfg e ⟨hdr, body⟩ latencyNS).status = 401 ↔
      specAuthorize hdr cfg.token cfg.devMode = false) ∧
    ((handleQuery cfg e ⟨hdr, body⟩ latencyNS).status = 408 ↔
      specAuthorize hdr cfg.token cfg.devMode = true ∧
      ∃ req, body = .ok req ∧ effectiveTimeoutNS req.timeoutMS < latencyNS) ∧
    ((handleQuery cfg e ⟨hdr, body⟩ latencyNS).status = 400 ↔
      specAuthorize hdr cfg.token cfg.devMode = true ∧
      ((∃ msg, body = .err msg) ∨
        ∃ req, body = .ok req ∧ ¬effectiveTimeoutNS req.timeoutMS < latencyNS ∧
          ∃ msg, e.Query req.sql req.limit req.offset = .error msg)) ∧
    ((handleQuery cfg e ⟨hdr, body⟩ latencyNS).status = 200 ↔
      specAuthorize hdr cfg.token cfg.devMode = true ∧
      ∃ req, body = .ok req ∧ ¬effectiveTimeoutNS req.timeoutMS < latencyNS ∧
        ∃ result, e.Query req.sql req.limit req.offset = .ok result) ∧
    ((handleQuery cfg e ⟨hdr, body⟩ latencyNS).status = 200 ∨
     (handleQuery cfg e ⟨hdr, body⟩ latencyNS).status = 400 ∨
     (handleQuery cfg e ⟨hdr, body⟩ latencyNS).status = 401 ∨
     (handleQuery cfg e ⟨hdr, body⟩ latencyNS).status = 408) := by
  unfold handleQuery
  split
  · rename_i hauth
    have hfalse : specAuthorize hdr cfg.token cfg.devMode = false := by
      rw [specAuthorize_eq_false_iff]; exact hauth
    simp [hfalse]
  · rename_i hauth
    have htrue : specAuthorize hdr cfg.token cfg.devMode = true := by
      rw [specAuthorize_eq_true_iff]
      by_contra hc
      push_neg at hc
      exact hauth ⟨by simp [hc.1], hc.2.1, hc.2.2⟩
    cases body with
    | err msg => simp [htrue]
    | ok req =>
      dsimp only
      split
      · rename_i hto
        simp [htrue, hto]
      · rename_i hto
        rcases hq : e.Query req.sql req.limit req.offset with msg | result
        · simp [htrue, hto, hq]
          omega
        · simp [htrue, hto, hq]
          exact ⟨by omega, result.1, result.2, rfl⟩

/-- C3: the authorization decision is a pure function of the presented
header, configured secret and dev-mode flag — the handler proceeds past
the gate (does not answer 401) exactly when dev-mode is on, the secret is
empty, or the header equals `"Bearer " ++ secret`. -/
theorem handleQuery_authorization_decision (cfg : HandlerConfig) (e : Engine)
    (r : HTTPRequest) (latencyNS : Int) :
    ((handleQuery cfg e r latencyNS).status ≠ 401 ↔
      specAuthorize r.authHeader cfg.token cfg.devMode = true) := by
  unfold handleQuery
  split
  · rename_i hauth
    have hfalse : specAuthorize r.authHeader cfg.token cfg.devMode = false := by
      rw [specAuthorize_eq_false_iff]; exact hauth
    simp [hfalse]
  · rename_i hauth
    have htrue : specAuthorize r.authHeader cfg.token cfg.devMode = true := by
      rw [specAuthorize_eq_true_iff]
      by_contra hc
      push_neg at hc
      exact hauth ⟨by simp [hc.1], hc.2.1, hc.2.2⟩
    cases hb : r.body with
    | err msg => simp [htrue]
    | ok req =>
      dsimp only
      split
      · simp [htrue]
      · rcases hq : e.Query req.sql req.limit req.offset with msg | result <;>
          simp [htrue, hq]

/-- C4: for every row sequence and non-negative limit and offset, the
pagination applied by `Engine.Query` equals the reference definition
`specPaginate`; moreover the returned row count is at most `limit`
whenever `limit > 0`, and the result is empty whenever
`offset ≥ length`. -/
theorem EngineQuery_pagination (e : Engine) (sql : String) (limit offset : Int)
    (hs : sql ≠ "") (hl : 0 ≤ limit) (ho : 0 ≤ offset) :
    e.Query sql limit offset =
      Except.ok (e.columns, specPaginate e.rows limit offset) ∧
    (0 < limit → ((specPaginate e.rows limit offset).length : Int) ≤ limit) ∧
    ((e.rows.length : Int) ≤ offset → specPaginate e.rows limit offset = []) := by
  refine ⟨?_, ?_, ?_⟩
  · unfold Engine.Query
    rw [if_neg hs]
    rfl
  · intro hpos
    simp only [specPaginate]
    by_cases hcut : 0 < limit ∧ limit <
        (((if 0 < offset then
            if (e.rows.length : Int) ≤ offset then ([] : List (List Value))
            else e.rows.drop offset.toNat
          else e.rows).length : Int))
    · rw [if_pos hcut]
      obtain ⟨h1, h2⟩ := hcut
      rw [List.length_take]
      omega
    · rw [if_neg hcut]
      push_neg at hcut
      exact hcut hpos
  · intro hoff
    simp only [specPaginate]
    by_cases hop : 0 < offset
    · rw [if_pos hop, if_pos hoff]
      simp
    · have hnil : e.rows = [] := by
        have : e.rows.length = 0 := by omega
        exact List.length_eq_zero.mp this
      rw [if_neg hop]
      simp [hnil]

/-- C4 witness: at limit 1 and offset 5 against the fixed engine the
query succeeds with the paginated (here empty) rows, the row count is
bounded by the limit, and offset past the end empties the result. -/
theorem EngineQuery_pagination_witness :
    NewEngine.Query "SELECT * FROM users" 1 5 =
      Except.ok (["id", "name"], ([] : List (List Value))) ∧
    ((specPaginate NewEngine.rows 1 5).length : Int) ≤ 1 ∧
    specPaginate NewEngine.rows 1 5 = [] := by
  have h := EngineQuery_pagination NewEngine "SELECT * FROM users" 1 5
    (by decide) (by decide) (by decide)
  refine ⟨?_, h.2.1 (by decide), h.2.2 (by decide)⟩
  rw [h.1, h.2.2 (by decide)]
  rfl

/-- C5 counterexample: on the empty SQL string the engine fails with
reason text "empty SQL", not "empty query" as the claim states. -/
theorem EngineQuery_empty_reason_counterexample :
    NewEngine.Query "" 0 0 = Except.error "empty SQL" ∧
    NewEngine.Query "" 0 0 ≠ (Except.error "empty query" :
      Except String (List String × List (List Value))) := by
  refine ⟨rfl, fun h => ?_⟩
  rw [show NewEngine.Query "" 0 0 = Except.error "empty SQL" from rfl] at h
  have hmsg : "empty SQL" = "empty query" := by injection h
  exact absurd hmsg (by decide)

/-- C5 amended: for every limit and offset, `Engine.Query` on the empty
SQL string fails with reason text "empty SQL", and on any non-empty SQL
string it never returns an error at all. -/
theorem EngineQuery_empty_sql_error (e : Engine) (limit offset : Int)
    (sql msg : String) (hs : sql ≠ "") :
    e.Query "" limit offset = Except.error "empty SQL" ∧
    e.Query sql limit offset ≠ Except.error msg := by
  constructor
  · rfl
  · intro h
    unfold Engine.Query at h
    rw [if_neg hs] at h
    exact Except.noConfusion h

/-- C5 witness: concrete discharge at a non-empty query string. -/
theorem EngineQuery_empty_sql_error_witness :
    ("SELECT * FROM users" ≠ "") ∧
    (NewEngine.Query "" 0 0 = Except.error "empty SQL" ∧
     NewEngine.Query "SELECT * FROM users" 0 0 ≠ Except.error "empty SQL") :=
  ⟨by decide,
   EngineQuery_empty_sql_error NewEngine 0 0 "SELECT * FROM users" "empty SQL"
     (by decide)⟩

/-- C10: for non-empty SQL, a negative offset drops no rows and a
negative limit performs no truncation — each behaves exactly like
passing 0 — and the query does not fail. -/
theorem EngineQuery_negative_params (e : Engine) (sql : String)
    (limit offset : Int) (hs : sql ≠ "") :
    (offset < 0 → e.Query sql limit offset = e.Query sql limit 0) ∧
    (limit < 0 → e.Query sql limit offset = e.Query sql 0 offset) ∧
    ∃ cols rows, e.Query sql limit offset = Except.ok (cols, rows) := by
  refine ⟨?_, ?_, ?_⟩
  · intro hneg
    unfold Engine.Query
    rw [if_neg hs, if_neg hs]
    simp only [paginate]
    rw [if_neg (by omega : ¬(0 : Int) < offset), if_neg (by omega : ¬(0 : Int) < 0)]
  · intro hneg
    unfold Engine.Query
    rw [if_neg hs, if_neg hs]
    simp only [paginate]
    rw [if_neg (by omega : ¬(0 < limit ∧ limit <
        (((if 0 < offset then
            if (e.rows.length : Int) ≤ offset then ([] : List (List Value))
            else e.rows.drop offset.toNat
          else e.rows).length : Int)))),
      if_neg (by omega : ¬((0 : Int) < 0 ∧ (0 : Int) <
        (((if 0 < offset then
            if (e.rows.length : Int) ≤ offset then ([] : List (List Value))
            else e.rows.drop offset.toNat
          else e.rows).length : Int))))]
  · refine ⟨e.columns, paginate e.rows limit offset, ?_⟩
    unfold Engine.Query
    rw [if_neg hs]

/-- C10 witness: concrete discharge at negative limit and offset. -/
theorem EngineQuery_negative_params_witness :
    (NewEngine.Query "SELECT 1" (-1) (-2) = NewEngine.Query "SELECT 1" (-1) 0) ∧
    (NewEngine.Query "SELECT 1" (-1) (-2) = NewEngine.Query "SELECT 1" 0 (-2)) ∧
    NewEngine.Query "SELECT 1" (-1) (-2) =
      Except.ok (["id", "name"], [[Value.int 1, Value.str "Alice"]]) := by
  have h := EngineQuery_negative_params NewEngine "SELECT 1" (-1) (-2) (by decide)
  exact ⟨h.1 (by decide), h.2.1 (by decide), rfl⟩

/-- C6: whenever the effective timeout is strictly smaller than the
engine latency, the race resolves to the timeout outcome — status 408
with the timeout error and no columns or rows, so a success result that
becomes available only after the deadline is never delivered. -/
theorem handleQuery_timeout_wins (cfg : HandlerConfig) (e : Engine)
    (hdr : String) (req : QueryRequest) (latencyNS : Int)
    (hauth : specAuthorize hdr cfg.token cfg.devMode = true)
    (hto : effectiveTimeoutNS req.timeoutMS < latencyNS) :
    (handleQuery cfg e ⟨hdr, .ok req⟩ latencyNS).status = 408 ∧
    (handleQuery cfg e ⟨hdr, .ok req⟩ latencyNS).response =
      { error := some { code := 408, message := "timeout" } } := by
  have hcond : ¬(¬cfg.devMode ∧ cfg.token ≠ "" ∧ hdr ≠ "Bearer " ++ cfg.token) := by
    rw [specAuthorize_eq_true_iff] at hauth
    rintro ⟨h1, h2, h3⟩
    rcases hauth with hd | hs | hh
    · exact h1 hd
    · exact h2 hs
    · exact h3 hh
  unfold handleQuery
  rw [if_neg hcond]
  dsimp only
  rw [if_pos hto]
  exact ⟨rfl, rfl⟩

/-- C6 witness: dev mode on, the SLEEP query with a 10 ms timeout and a
200 ms engine latency resolves to the timeout outcome. -/
theorem handleQuery_timeout_wins_witness :
    (handleQuery ⟨"", true⟩ NewEngine
      ⟨"", .ok ⟨"SLEEP", 0, 0, 10⟩⟩ 200000000).status = 408 ∧
    (handleQuery ⟨"", true⟩ NewEngine
      ⟨"", .ok ⟨"SLEEP", 0, 0, 10⟩⟩ 200000000).response =
      { error := some { code := 408, message := "timeout" } } :=
  handleQuery_timeout_wins ⟨"", true⟩ NewEngine "" ⟨"SLEEP", 0, 0, 10⟩ 200000000
    (by decide) (by decide)

/-- C7 counterexample: an authorized request (dev mode on) whose body is
malformed resolves to the malformed-body outcome with zero audit
emissions, where the claim demands exactly one. -/
theorem handleQuery_audit_malformed_counterexample :
    (handleQuery ⟨"", true⟩ NewEngine ⟨"", .err "unexpected EOF"⟩ 0).status = 400 ∧
    auditCount (handleQuery ⟨"", true⟩ NewEngine
      ⟨"", .err "unexpected EOF"⟩ 0).events = 0 :=
  ⟨rfl, rfl⟩

/-- C7 amended: the number of audit emissions is exactly one for every
request that passes authorization and whose body parses (regardless of
success, execution-failure, or timeout outcome), and exactly zero for
unauthorized requests and for authorized requests with malformed
bodies. -/
theorem handleQuery_audit_count (cfg : HandlerConfig) (e : Engine)
    (hdr : String) (body : ParseResult) (latencyNS : Int) :
    auditCount (handleQuery cfg e ⟨hdr, body⟩ latencyNS).events =
      if specAuthorize hdr cfg.token cfg.devMode = true ∧ body.isOk = true
      then 1 else 0 := by
  unfold handleQuery
  split
  · rename_i hauth
    have hfalse : specAuthorize hdr cfg.token cfg.devMode = false :=
      (specAuthorize_eq_false_iff _ _ _).mpr hauth
    rw [if_neg (by simp [hfalse])]
    rfl
  · rename_i hauth
    have htrue : specAuthorize hdr cfg.token cfg.devMode = true := by
      rw [specAuthorize_eq_true_iff]
      by_contra hc
      push_neg at hc
      exact hauth ⟨hc.1, hc.2.1, hc.2.2⟩
    cases body with
    | err msg =>
      rw [if_neg (by simp [ParseResult.isOk])]
      rfl
    | ok req =>
      rw [if_pos ⟨htrue, rfl⟩]
      dsimp only
      split
      · rfl
      · rcases hq : e.Query req.sql req.limit req.offset with msg | result <;>
          simp [hq, auditCount]

/-- C8 counterexample: a strictly positive `timeout_ms` of
18446744073710 overflows the int64 nanosecond conversion and yields an
effective timeout of 448384 ns, not the requested duration. -/
theorem effectiveTimeout_overflow_counterexample :
    (0 : Int) < 18446744073710 ∧
    effectiveTimeoutNS 18446744073710 = 448384 ∧
    (448384 : Int) ≠ 18446744073710 * 1000000 := by
  refine ⟨by decide, by decide, by decide⟩

/-- C8 amended: whenever the millisecond value converts to nanoseconds
without int64 overflow (absolute value at most 9223372036854 ms), the
effective timeout is the requested duration when strictly positive and
the 5-second default when non-positive. -/
theorem effectiveTimeout_spec (t : Int)
    (hlo : -9223372036854 ≤ t) (hhi : t ≤ 9223372036854) :
    effectiveTimeoutNS t =
      if t ≤ 0 then 5000000000 else t * 1000000 := by
  have hw : wrap64 (t * 1000000) = t * 1000000 := by
    unfold wrap64
    have h1 : 0 ≤ t * 1000000 + 2 ^ 63 := by omega
    have h2 : t * 1000000 + 2 ^ 63 < 2 ^ 64 := by omega
    rw [Int.emod_eq_of_lt h1 h2]
    omega
  simp only [effectiveTimeoutNS, hw]
  by_cases ht : t ≤ 0
  · rw [if_pos (by omega : t * 1000000 ≤ 0), if_pos ht]
  · rw [if_neg (by omega : ¬t * 1000000 ≤ 0), if_neg ht]

/-- C8 witness: concrete discharge at a requested timeout of 10 ms. -/
theorem effectiveTimeout_spec_witness :
    (-9223372036854 ≤ (10 : Int)) ∧ ((10 : Int) ≤ 9223372036854) ∧
    effectiveTimeoutNS 10 =
      (if (10 : Int) ≤ 0 then 5000000000 else 10 * 1000000) :=
  ⟨by decide, by decide, effectiveTimeout_spec 10 (by decide) (by decide)⟩

/-- C9: authorization is checked strictly before the body is parsed — an
unauthorized request whose body is malformed still answers 401, and no
body-decode attempt is recorded. -/
theorem handleQuery_auth_before_parse (cfg : HandlerConfig) (e : Engine)
    (hdr msg : String) (latencyNS : Int)
    (hauth : specAuthorize hdr cfg.token cfg.devMode = false) :
    (handleQuery cfg e ⟨hdr, .err msg⟩ latencyNS).status = 401 ∧
    Event.decodeAttempt ∉ (handleQuery cfg e ⟨hdr, .err msg⟩ latencyNS).events := by
  obtain ⟨h1, h2, h3⟩ := (specAuthorize_eq_false_iff _ _ _).mp hauth
  unfold handleQuery
  rw [if_pos ⟨h1, h2, h3⟩]
  exact ⟨rfl, by simp⟩

/-- C9 witness: concrete discharge with a configured secret, no header,
and a malformed body. -/
theorem handleQuery_auth_before_parse_witness :
    (handleQuery ⟨"secret", false⟩ NewEngine
      ⟨"", .err "unexpected EOF"⟩ 0).status = 401 ∧
    Event.decodeAttempt ∉ (handleQuery ⟨"secret", false⟩ NewEngine
      ⟨"", .err "unexpected EOF"⟩ 0).events :=
  handleQuery_auth_before_parse ⟨"secret", false⟩ NewEngine "" "unexpected EOF" 0
    (by decide)

end MiniSQL
